import Mathlib

/-!
Verification of the DivertSocket element (etc/ron/divertsocket.cc):
configuration parsing, Linux-backend firewall rule synthesis, lifecycle
(the element's initialize / uninitialize / destructor) and the
readiness-driven receive path (selected), as a shallow embedding.

Tokens are lists of characters.  The external collaborators that are not
part of the source file (the configuration token parsers cp_integer,
cpUnsigned, cpByte, cp_ip_prefix of the Click library, kernel syscalls,
and the host event loop) are modelled from the spec: the token parsers as
executable parsers over the spec's grammar, and the syscalls and host
callbacks as oracle environments whose outcomes parametrise the lifecycle
functions, with every externally visible action recorded in an event
trace.
-/

/-- True when the token is a nonempty string of decimal digits. -/
def isDigitsB (cs : List Char) : Bool := !cs.isEmpty && cs.all Char.isDigit

/-- Decimal value of a digit string. -/
def digitsVal (cs : List Char) : Nat :=
  cs.foldl (fun a c => a * 10 + (c.toNat - 48)) 0

/-- Modelled from the spec: cp_integer, the external configuration-token
integer parser consumed by DivertSocket::parse_ports.  The spec's port
grammar consumes nonnegative decimal integers. -/
def cp_integer (cs : List Char) : Option Int :=
  if isDigitsB cs = true then some ((digitsVal cs : Int)) else none

/-- Modelled from the spec: cpUnsigned, the external unsigned-integer
token parser used for the divert port and the rule number. -/
def cp_unsigned (cs : List Char) : Option Nat :=
  if isDigitsB cs = true then some (digitsVal cs) else none

/-- Modelled from the spec: cpByte, the external byte token parser used
for the protocol number. -/
def cp_byte (cs : List Char) : Option Nat :=
  if isDigitsB cs = true ∧ digitsVal cs ≤ 255 then some (digitsVal cs) else none

/-- Split a token at the first occurrence of a separator character:
the part before it and, when the separator occurs, the part after it.
This mirrors find_left plus the two substring calls in the source. -/
def splitTok (sep : Char) : List Char → List Char × Option (List Char)
  | [] => ([], none)
  | c :: cs =>
    if c = sep then ([], some cs)
    else
      let p := splitTok sep cs
      (c :: p.1, p.2)

/-- DivertSocket::parse_ports (divertsocket.cc lines 77-104).  Returns the
final values written through the portl/porth out-parameters together with
the success flag (the source returns 0 on success and -1 on failure, and
writes 0 to both outputs before parsing). -/
def parse_ports (param : List Char) : Int × Int × Bool :=
  match splitTok '-' param with
  | (pre, some post) =>
    match cp_integer pre with
    | none => (0, 0, false)
    | some portl =>
      match cp_integer post with
      | none => (portl, 0, false)
      | some porth =>
        if portl > porth ∨ portl < 0 ∨ porth > 65535 then (portl, porth, false)
        else (portl, porth, true)
  | (pre, none) =>
    match cp_integer pre with
    | none => (0, 0, false)
    | some portl =>
      if portl > portl ∨ portl < 0 ∨ portl > 65535 then (portl, portl, false)
      else (portl, portl, true)

/-- Split a token at every occurrence of a dot (helper for the modelled
address parser).  The result list is always nonempty. -/
def splitDots : List Char → List (List Char)
  | [] => [[]]
  | c :: cs =>
    match splitDots cs with
    | [] => [[]]
    | r :: rs => if c = '.' then [] :: r :: rs else (c :: r) :: rs

/-- Modelled from the spec: one octet of a dotted-quad address. -/
def octet (cs : List Char) : Option Nat :=
  if isDigitsB cs = true ∧ digitsVal cs ≤ 255 then some (digitsVal cs) else none

/-- Modelled from the spec: a dotted-quad IPv4 address as a 32-bit value. -/
def parseQuad (cs : List Char) : Option Nat :=
  match splitDots cs with
  | [q1, q2, q3, q4] => do
    let v1 ← octet q1
    let v2 ← octet q2
    let v3 ← octet q3
    let v4 ← octet q4
    some (((v1 * 256 + v2) * 256 + v3) * 256 + v4)
  | _ => none

/-- Netmask (as a 32-bit value) of a prefix length between 0 and 32. -/
def maskOfLen (n : Nat) : Nat := 2 ^ 32 - 2 ^ (32 - n)

/-- Modelled from the spec: cp_ip_prefix, the external address/prefix
token parser (allow_bare_address variant).  Accepts a dotted-quad
address optionally followed by a slash and either a prefix length
(0..32) or a dotted-quad mask; a bare address gets an all-ones mask.
Returns the (address, mask) pair as 32-bit values. -/
def cp_ip_pfx (cs : List Char) : Option (Nat × Nat) :=
  match splitTok '/' cs with
  | (a, none) =>
    match parseQuad a with
    | some ad => some (ad, 2 ^ 32 - 1)
    | none => none
  | (a, some m) =>
    match parseQuad a with
    | none => none
    | some ad =>
      match parseQuad m with
      | some mk => some (ad, mk)
      | none =>
        if isDigitsB m = true ∧ digitsVal m ≤ 32 then some (ad, maskOfLen (digitsVal m))
        else none

/-- The element state produced by a successful DivertSocket::configure:
the member variables the source assigns.  The dportl/dporth members are
written only when a destination-port token is examined; `none` models the
member never having been written. -/
structure DSConfig where
  device : List Char
  divertport : Nat
  rulenumber : Nat
  protocol : Nat
  saddr : Nat
  smask : Nat
  have_sport : Bool
  sportl : Int
  sporth : Int
  daddr : Nat
  dmask : Nat
  have_dport : Bool
  dportl : Option Int
  dporth : Option Int
  inout : List Char
deriving DecidableEq

/-- The five fixed leading members parsed from tokens 0..4. -/
structure Cfg0 where
  device : List Char
  divertport : Nat
  rulenumber : Nat
  protocol : Nat
  saddr : Nat
  smask : Nat
deriving DecidableEq

/-- Direction token "in". -/
def dirIn : List Char := "in".toList

/-- Direction token "out". -/
def dirOut : List Char := "out".toList

/-- Tokens 0..4 of DivertSocket::configure (lines 125-144): device,
divert port, rule number, protocol, source prefix, and the source-address
zero check. -/
def parseFixed (conf : List (List Char)) : Option Cfg0 :=
  match cp_unsigned (conf.getD 1 []) with
  | none => none
  | some dp =>
    match cp_unsigned (conf.getD 2 []) with
    | none => none
    | some rn =>
      match cp_byte (conf.getD 3 []) with
      | none => none
      | some pr =>
        match cp_ip_pfx (conf.getD 4 []) with
        | none => none
        | some sp =>
          if sp.1 = 0 then none
          else some { device := conf.getD 0 [], divertport := dp, rulenumber := rn,
                      protocol := pr, saddr := sp.1, smask := sp.2 }

/-- The in/out step of configure (lines 190-198): when exactly one token
remains it must be one of "", "in", "out". -/
def parseDir (conf : List (List Char)) (ci : Nat) (s : DSConfig) : Option DSConfig :=
  if conf.length = ci + 1 then
    if conf.getD ci [] = [] ∨ conf.getD ci [] = dirIn ∨ conf.getD ci [] = dirOut then
      some { s with inout := conf.getD ci [] }
    else none
  else some s

/-- The destination-ports step of configure (lines 174-187): the token is
examined only when it is the single remaining one; for TCP/UDP it becomes
dst ports exactly when it parses, for other protocols a parsable port
token is an error. -/
def parseDports (conf : List (List Char)) (ci : Nat) (s : DSConfig) : Option DSConfig :=
  if conf.length = ci + 1 then
    if s.protocol = 17 ∨ s.protocol = 6 then
      if (parse_ports (conf.getD ci [])).2.2 = true then
        parseDir conf (ci + 1)
          { s with have_dport := true, dportl := some (parse_ports (conf.getD ci [])).1,
                   dporth := some (parse_ports (conf.getD ci [])).2.1 }
      else
        parseDir conf ci
          { s with dportl := some (parse_ports (conf.getD ci [])).1,
                   dporth := some (parse_ports (conf.getD ci [])).2.1 }
    else
      if (parse_ports (conf.getD ci [])).2.2 = true then none
      else
        parseDir conf ci
          { s with dportl := some (parse_ports (conf.getD ci [])).1,
                   dporth := some (parse_ports (conf.getD ci [])).2.1 }
  else parseDir conf ci s

/-- The destination-prefix step of configure (lines 164-172): mandatory
prefix at the current index, destination-address zero check, then the
destination-ports and direction steps. -/
def parseDst (conf : List (List Char)) (ci : Nat) (c0 : Cfg0) (sl sh : Int)
    (hs : Bool) : Option DSConfig :=
  match cp_ip_pfx (conf.getD ci []) with
  | none => none
  | some dp =>
    if dp.1 = 0 then none
    else
      parseDports conf (ci + 1)
        { device := c0.device, divertport := c0.divertport, rulenumber := c0.rulenumber,
          protocol := c0.protocol, saddr := c0.saddr, smask := c0.smask,
          have_sport := hs, sportl := sl, sporth := sh,
          daddr := dp.1, dmask := dp.2,
          have_dport := false, dportl := none, dporth := none, inout := [] }

/-- Token 5 onwards of configure (lines 146-162): the arity check for
non-TCP/UDP rules and the ambiguous source-ports token. -/
def parseTail (conf : List (List Char)) (c0 : Cfg0) : Option DSConfig :=
  if (¬c0.protocol = 17 ∧ ¬c0.protocol = 6) ∧ 7 < conf.length then none
  else if c0.protocol = 17 ∨ c0.protocol = 6 then
    if (parse_ports (conf.getD 5 [])).2.2 = true then
      parseDst conf 6 c0 (parse_ports (conf.getD 5 [])).1 (parse_ports (conf.getD 5 [])).2.1 true
    else
      parseDst conf 5 c0 (parse_ports (conf.getD 5 [])).1 (parse_ports (conf.getD 5 [])).2.1 false
  else if (parse_ports (conf.getD 5 [])).2.2 = true then none
  else
    parseDst conf 5 c0 (parse_ports (conf.getD 5 [])).1 (parse_ports (conf.getD 5 [])).2.1 false

/-- DivertSocket::configure (lines 106-201). -/
def configure (conf : List (List Char)) : Option DSConfig :=
  if conf.length < 6 then none
  else if 9 < conf.length then none
  else
    match parseFixed conf with
    | none => none
    | some c0 => parseTail conf c0

/-- 16-bit byte swap: htons/ntohs on a little-endian host (the i386 Linux
target of this element), with the C truncation of the argument to 16
bits. -/
def htons (x : Nat) : Nat := (x % 256) * 256 + (x / 256) % 256

/-- The Linux ip_fw rule record filled in by initialize
(lines 290-309). -/
structure FwRule where
  fw_proto : Nat
  fw_redirpt : Nat
  fw_spts : Int × Int
  fw_dpts : Option Int × Option Int
  fw_src : Nat
  fw_smsk : Nat
  fw_dst : Nat
  fw_dmsk : Nat
  fw_vianame : List Char
deriving DecidableEq

/-- The ip_fwuser structure: the rule plus the policy label. -/
structure IpFwUser where
  ipfw : FwRule
  label : List Char
deriving DecidableEq

/-- The ip_fwnew structure: the labelled rule, the rule number, and the
chain label. -/
structure IpFwNew where
  fwn_rule : IpFwUser
  fwn_rulenum : Nat
  fwn_label : List Char
deriving DecidableEq

/-- The rule record as built by the Linux branch of initialize
(lines 290-309): note fw_redirpt is htons applied to bindPort.sin_port,
which is itself htons of the divert port. -/
def mkFwRule (cfg : DSConfig) : FwRule :=
  { fw_proto := cfg.protocol,
    fw_redirpt := htons (htons cfg.divertport),
    fw_spts := (cfg.sportl, cfg.sporth),
    fw_dpts := (cfg.dportl, cfg.dporth),
    fw_src := cfg.saddr,
    fw_smsk := cfg.smask,
    fw_dst := cfg.daddr,
    fw_dmsk := cfg.dmask,
    fw_vianame := cfg.device }

/-- The policy label DIVERT. -/
def policyDIVERT : List Char := "DIVERT".toList

/-- Chain label of the input chain. -/
def chainInput : List Char := "input".toList

/-- Chain label of the output chain. -/
def chainOutput : List Char := "output".toList

/-- Externally visible actions of the element: syscalls on descriptors,
firewall control operations, readiness (de)registration, packet buffer
allocation, receive, push to the output port, buffer drop and error
logging. -/
inductive Ev where
  | evSocket : Int → Ev
  | evFwSocket : Int → Ev
  | evClose : Int → Ev
  | evInsert : List Char → Nat → Bool → Ev
  | evDelete : List Char → Nat → Bool → Ev
  | evAddSelect : Int → Ev
  | evRemoveSelect : Int → Ev
  | evMakePkt : Nat → Nat → Ev
  | evRecv : Int → Int → Ev
  | evPushPkt : Nat → Nat → Int → Nat → Ev
  | evKillPkt : Ev
  | evLog : Ev
deriving DecidableEq

/-- Outcomes of the syscalls performed by initialize: divert-socket
creation, bind, control-socket creation, and per-chain rule
insertion. -/
structure InitEnv where
  socket_ok : Bool
  fdDivert : Int
  bind_ok : Bool
  fwsock_ok : Bool
  fdFw : Int
  insert_ok : List Char → Bool

/-- The resource-holding element state after a successful initialize: the
divert descriptor, the firewall control socket, the two chain slots and
the direction. -/
structure ElemState where
  fd : Int
  fw_sock : Int
  ipfc : IpFwNew
  ipfc2 : IpFwNew
  inout : List Char
deriving DecidableEq

/-- The shared tail of the Linux insert sequence (lines 351-366): insert
the ipfc slot; on failure return the error with no cleanup (the source
returns -1 directly), on success register for read readiness. -/
def finishInsert (env : InitEnv) (inoutv : List Char) (fd fws : Int)
    (ipfc ipfc2 : IpFwNew) (tr : List Ev) : Option ElemState × List Ev :=
  if env.insert_ok ipfc.fwn_label = true then
    (some { fd := fd, fw_sock := fws, ipfc := ipfc, ipfc2 := ipfc2, inout := inoutv },
     tr ++ [Ev.evInsert ipfc.fwn_label ipfc.fwn_rulenum true, Ev.evAddSelect fd])
  else (none, tr ++ [Ev.evInsert ipfc.fwn_label ipfc.fwn_rulenum false])

/-- DivertSocket::initialize, Linux backend (lines 204-367): open and
bind the divert socket (bind failure closes it), build the rule record,
open the control socket, label the chain slots from the direction, insert
the rule(s) (direction "" inserts the output slot first), then register
for read readiness.  Failures after the bind step return with no cleanup,
exactly as the source does. -/
def elemInit (env : InitEnv) (cfg : DSConfig) : Option ElemState × List Ev :=
  if env.socket_ok = false then (none, [])
  else if env.bind_ok = false then
    (none, [Ev.evSocket env.fdDivert, Ev.evClose env.fdDivert])
  else if env.fwsock_ok = false then (none, [Ev.evSocket env.fdDivert])
  else
    let base : IpFwNew :=
      { fwn_rule := { ipfw := mkFwRule cfg, label := policyDIVERT },
        fwn_rulenum := cfg.rulenumber, fwn_label := [] }
    let tr := [Ev.evSocket env.fdDivert, Ev.evFwSocket env.fdFw]
    if cfg.inout = dirIn then
      finishInsert env cfg.inout env.fdDivert env.fdFw
        { base with fwn_label := chainInput } base tr
    else if cfg.inout = dirOut then
      finishInsert env cfg.inout env.fdDivert env.fdFw
        { base with fwn_label := chainOutput } base tr
    else
      if env.insert_ok chainOutput = true then
        finishInsert env cfg.inout env.fdDivert env.fdFw
          { base with fwn_label := chainInput } { base with fwn_label := chainOutput }
          (tr ++ [Ev.evInsert chainOutput cfg.rulenumber true])
      else (none, tr ++ [Ev.evInsert chainOutput cfg.rulenumber false])

/-- Outcomes of the two best-effort rule deletions in uninitialize. -/
structure UnEnv where
  del1_ok : Bool
  del2_ok : Bool

/-- DivertSocket::uninitialize, Linux backend (lines 370-410): when the
descriptor is open, delete the ipfc slot (and, for direction "", the
ipfc2 slot) best-effort, close the control socket, close the divert
descriptor, deregister read readiness, and mark the descriptor
closed. -/
def elemUninit (env : UnEnv) (st : ElemState) : ElemState × List Ev :=
  if 0 ≤ st.fd then
    ({ st with fd := -1 },
     [Ev.evDelete st.ipfc.fwn_label st.ipfc.fwn_rulenum env.del1_ok] ++
       (if st.inout = [] then
          [Ev.evDelete st.ipfc2.fwn_label st.ipfc2.fwn_rulenum env.del2_ok]
        else []) ++
       [Ev.evClose st.fw_sock, Ev.evClose st.fd, Ev.evRemoveSelect st.fd])
  else (st, [])

/-- DivertSocket::~DivertSocket (lines 65-69): the destructor invokes
uninitialize. -/
def elemDtor (env : UnEnv) (st : ElemState) : ElemState × List Ev :=
  elemUninit env st

/-- Outcomes visible to selected: the recvfrom return value, whether
errno is EAGAIN, and the wall clock at the receive. -/
structure SelEnv where
  recvLen : Int
  errnoEAGAIN : Bool
  now : Nat

/-- DivertSocket::selected (lines 413-443): ignore foreign descriptors;
otherwise allocate a 2046-byte buffer with headroom 2, perform one
recvfrom, and on a positive length timestamp the packet, set headroom 2
and length to the received count and push it to output port 0; otherwise
drop the buffer and log unless errno is EAGAIN. -/
def elemSelected (env : SelEnv) (st : ElemState) (fd : Int) : ElemState × List Ev :=
  if fd ≠ st.fd then (st, [])
  else if 0 < env.recvLen then
    (st, [Ev.evMakePkt 2 2046, Ev.evRecv st.fd env.recvLen,
          Ev.evPushPkt 0 2 env.recvLen env.now])
  else
    (st, [Ev.evMakePkt 2 2046, Ev.evRecv st.fd env.recvLen, Ev.evKillPkt] ++
      (if env.recvLen ≤ 0 ∧ env.errnoEAGAIN = false then [Ev.evLog] else []))

/-- True on a recvfrom event. -/
def isRecvEv : Ev → Bool
  | Ev.evRecv _ _ => true
  | _ => false

/-- True on a push-to-output event. -/
def isPushEv : Ev → Bool
  | Ev.evPushPkt _ _ _ _ => true
  | _ => false

/-- True on a close event. -/
def isCloseEv : Ev → Bool
  | Ev.evClose _ => true
  | _ => false

/-- True on a firewall-delete event. -/
def isDeleteEv : Ev → Bool
  | Ev.evDelete _ _ _ => true
  | _ => false

/-- True on a readiness-deregistration event. -/
def isRemoveSelEv : Ev → Bool
  | Ev.evRemoveSelect _ => true
  | _ => false


/-- The 9-token scenario of the spec: both optional trailing tokens
present after the destination prefix. -/
def ex9 : List (List Char) :=
  ["eth0".toList, "9999".toList, "100".toList, "6".toList, "10.0.0.0/8".toList,
   "80-80".toList, "0.0.0.0/0".toList, "".toList, "in".toList]

/-- The 9-token scenario with a nonzero destination prefix. -/
def ex9b : List (List Char) :=
  ["eth0".toList, "9999".toList, "100".toList, "6".toList, "10.0.0.0/8".toList,
   "80-80".toList, "1.0.0.0/8".toList, "".toList, "in".toList]

/-- The element state configure computes for ex9b. -/
def cfgEx : DSConfig :=
  { device := "eth0".toList, divertport := 9999, rulenumber := 100, protocol := 6,
    saddr := 167772160, smask := 4278190080, have_sport := true, sportl := 80,
    sporth := 80, daddr := 16777216, dmask := 4278190080, have_dport := false,
    dportl := none, dporth := none, inout := [] }

/-- A seven-token TCP configuration with source ports. -/
def conf7 : List (List Char) :=
  ["eth0".toList, "9999".toList, "100".toList, "6".toList, "10.0.0.0/8".toList,
   "80-90".toList, "1.0.0.0/8".toList]

/-- The element state configure computes for conf7. -/
def st7 : DSConfig :=
  { device := "eth0".toList, divertport := 9999, rulenumber := 100, protocol := 6,
    saddr := 167772160, smask := 4278190080, have_sport := true, sportl := 80,
    sporth := 90, daddr := 16777216, dmask := 4278190080, have_dport := false,
    dportl := none, dporth := none, inout := [] }

/-- The ICMP-with-ports scenario: protocol 1 with a port token. -/
def confICMP : List (List Char) :=
  ["eth0".toList, "9999".toList, "100".toList, "1".toList, "10.0.0.0/8".toList,
   "80".toList, "1.0.0.0/8".toList]

/-- The reversed-port-range scenario: a 100-50 token at position 5. -/
def confRev : List (List Char) :=
  ["eth0".toList, "9999".toList, "100".toList, "17".toList, "10.0.0.0/8".toList,
   "100-50".toList, "10.0.0.1/32".toList]

/-- Syscall environment in which every operation succeeds. -/
def envAllOk : InitEnv :=
  { socket_ok := true, fdDivert := 3, bind_ok := true, fwsock_ok := true, fdFw := 4,
    insert_ok := fun _ => true }

/-- Syscall environment in which the bind step fails. -/
def envBindFail : InitEnv :=
  { socket_ok := true, fdDivert := 3, bind_ok := false, fwsock_ok := true, fdFw := 4,
    insert_ok := fun _ => true }

/-- Syscall environment in which only the output-chain insertion
succeeds. -/
def envNoRollback : InitEnv :=
  { socket_ok := true, fdDivert := 3, bind_ok := true, fwsock_ok := true, fdFw := 4,
    insert_ok := fun c => decide (c = chainOutput) }

/-- Syscall environment in which the divert-socket creation fails. -/
def envSockFail : InitEnv :=
  { socket_ok := false, fdDivert := 3, bind_ok := true, fwsock_ok := true, fdFw := 4,
    insert_ok := fun _ => true }

/-- Syscall environment in which the firewall control-socket creation
fails. -/
def envFwFail : InitEnv :=
  { socket_ok := true, fdDivert := 3, bind_ok := true, fwsock_ok := false, fdFw := 4,
    insert_ok := fun _ => true }

/-- Syscall environment in which every rule insertion fails. -/
def envInsFail : InitEnv :=
  { socket_ok := true, fdDivert := 3, bind_ok := true, fwsock_ok := true, fdFw := 4,
    insert_ok := fun _ => false }

/-- The example configuration with direction in. -/
def cfgExIn : DSConfig := { cfgEx with inout := dirIn }

/-- The example configuration with direction out. -/
def cfgExOut : DSConfig := { cfgEx with inout := dirOut }

/-- Deletion outcomes: both firewall deletions succeed. -/
def envU : UnEnv := { del1_ok := true, del2_ok := true }

/-- A live element state: open descriptors and both chain slots. -/
def stLive : ElemState :=
  { fd := 3, fw_sock := 4,
    ipfc := { fwn_rule := { ipfw := mkFwRule cfgEx, label := policyDIVERT },
              fwn_rulenum := 100, fwn_label := chainInput },
    ipfc2 := { fwn_rule := { ipfw := mkFwRule cfgEx, label := policyDIVERT },
               fwn_rulenum := 100, fwn_label := chainOutput },
    inout := [] }

/-- The live state after its descriptor was closed. -/
def stDead : ElemState := { stLive with fd := -1 }

/-- Receive environment: a 60-byte datagram at clock 777. -/
def envSelPos : SelEnv := { recvLen := 60, errnoEAGAIN := false, now := 777 }

/-- Receive environment: recvfrom fails with an error other than
EAGAIN. -/
def envSelNeg : SelEnv := { recvLen := -1, errnoEAGAIN := false, now := 5 }

/-! ### Helper lemmas about the token parsers -/

theorem mem_digits {cs : List Char} (h : isDigitsB cs = true) {c : Char} (hc : c ∈ cs) :
    c.isDigit = true := by
  simp only [isDigitsB, Bool.and_eq_true, List.all_eq_true] at h
  exact h.2 c hc

theorem dash_not_mem_digits {cs : List Char} (h : isDigitsB cs = true) : '-' ∉ cs :=
  fun hm => absurd (mem_digits h hm) (by decide)

theorem splitTok_not_mem {sep : Char} {cs : List Char} (h : sep ∉ cs) :
    splitTok sep cs = (cs, none) := by
  induction cs with
  | nil => rfl
  | cons c cs ih =>
    simp only [List.mem_cons, not_or] at h
    have hcs : ¬c = sep := fun hc => h.1 hc.symm
    simp [splitTok, hcs, ih h.2]

theorem splitTok_app {sep : Char} {a : List Char} (b : List Char) (h : sep ∉ a) :
    splitTok sep (a ++ sep :: b) = (a, some b) := by
  induction a with
  | nil => simp [splitTok]
  | cons c a ih =>
    simp only [List.mem_cons, not_or] at h
    have hcs : ¬c = sep := fun hc => h.1 hc.symm
    simp [splitTok, hcs, ih h.2]

theorem splitTok_eq_some {sep : Char} {cs a b : List Char}
    (h : splitTok sep cs = (a, some b)) : cs = a ++ sep :: b ∧ sep ∉ a := by
  induction cs generalizing a with
  | nil => simp [splitTok] at h
  | cons c cs ih =>
    by_cases hc : c = sep
    · subst hc
      simp only [splitTok, if_pos rfl, Prod.mk.injEq, Option.some.injEq] at h
      obtain ⟨rfl, rfl⟩ := h
      simp
    · simp only [splitTok, if_neg hc, Prod.mk.injEq] at h
      obtain ⟨h1, h2⟩ := h
      obtain ⟨hcs, hnm⟩ := ih (a := (splitTok sep cs).1)
        (by rw [← h2])
      subst h1
      refine ⟨by rw [List.cons_append, ← hcs], ?_⟩
      simp only [List.mem_cons, not_or]
      exact ⟨fun hs => hc hs.symm, hnm⟩

theorem splitTok_eq_none {sep : Char} {cs a : List Char}
    (h : splitTok sep cs = (a, none)) : a = cs ∧ sep ∉ cs := by
  induction cs generalizing a with
  | nil =>
    simp only [splitTok, Prod.mk.injEq] at h
    simp [← h.1]
  | cons c cs ih =>
    by_cases hc : c = sep
    · subst hc
      simp [splitTok] at h
    · simp only [splitTok, if_neg hc, Prod.mk.injEq] at h
      obtain ⟨h1, h2⟩ := h
      obtain ⟨ha, hnm⟩ := ih (a := (splitTok sep cs).1) (by rw [← h2])
      subst h1
      constructor
      · rw [ha]
      · simp only [List.mem_cons, not_or]
        exact ⟨fun hs => hc hs.symm, hnm⟩

theorem cp_integer_digits {cs : List Char} (h : isDigitsB cs = true) :
    cp_integer cs = some ((digitsVal cs : Int)) := by
  simp [cp_integer, h]

theorem parse_ports_no_dash {cs : List Char} (hnm : '-' ∉ cs) :
    parse_ports cs =
      (match cp_integer cs with
       | none => (0, 0, false)
       | some portl =>
         if portl > portl ∨ portl < 0 ∨ portl > 65535 then (portl, portl, false)
         else (portl, portl, true)) := by
  unfold parse_ports
  rw [splitTok_not_mem hnm]

theorem parse_ports_dash {a : List Char} (b : List Char) (hnm : '-' ∉ a) :
    parse_ports (a ++ '-' :: b) =
      (match cp_integer a with
       | none => (0, 0, false)
       | some portl =>
         match cp_integer b with
         | none => (portl, 0, false)
         | some porth =>
           if portl > porth ∨ portl < 0 ∨ porth > 65535 then (portl, porth, false)
           else (portl, porth, true)) := by
  unfold parse_ports
  rw [splitTok_app b hnm]

theorem parse_ports_ok_iff (cs : List Char) (l h : Int) :
    parse_ports cs = (l, h, true) ↔
      ((isDigitsB cs = true ∧ l = (digitsVal cs : Int) ∧ h = l ∧ l ≤ 65535) ∨
       (∃ a b, cs = a ++ '-' :: b ∧ isDigitsB a = true ∧ isDigitsB b = true ∧
          l = (digitsVal a : Int) ∧ h = (digitsVal b : Int) ∧ l ≤ h ∧ h ≤ 65535)) := by
  constructor
  · intro hp
    rcases hsp : splitTok '-' cs with ⟨pre, post⟩
    cases post with
    | none =>
      obtain ⟨hpre, hnm⟩ := splitTok_eq_none hsp
      subst hpre
      rw [parse_ports_no_dash hnm] at hp
      left
      split at hp
      · simp at hp
      · rename_i portl heq
        split at hp
        · simp at hp
        · rename_i hcond
          push_neg at hcond
          simp only [cp_integer] at heq
          split at heq
          · rename_i hd
            injection heq with h2
            simp only [Prod.mk.injEq] at hp
            exact ⟨hd, by omega, by omega, by omega⟩
          · simp at heq
    | some post =>
      obtain ⟨hcs, hnm⟩ := splitTok_eq_some hsp
      subst hcs
      rw [parse_ports_dash post hnm] at hp
      right
      split at hp
      · simp at hp
      · rename_i portl heq
        split at hp
        · simp at hp
        · rename_i porth heq2
          split at hp
          · simp at hp
          · rename_i hcond
            push_neg at hcond
            simp only [cp_integer] at heq heq2
            split at heq
            · rename_i hda
              injection heq with h2
              split at heq2
              · rename_i hdb
                injection heq2 with h3
                simp only [Prod.mk.injEq] at hp
                exact ⟨pre, post, rfl, hda, hdb, by omega, by omega, by omega, by omega⟩
              · simp at heq2
            · simp at heq
  · intro hp
    rcases hp with ⟨hd, rfl, rfl, hle⟩ | ⟨a, b, rfl, hda, hdb, rfl, rfl, hlh, hhb⟩
    · rw [parse_ports_no_dash (dash_not_mem_digits hd)]
      split
      · rename_i heq
        rw [cp_integer_digits hd] at heq
        simp at heq
      · rename_i portl heq
        rw [cp_integer_digits hd] at heq
        injection heq with h2
        subst h2
        rw [if_neg (by omega)]
    · rw [parse_ports_dash b (dash_not_mem_digits hda)]
      split
      · rename_i heq
        rw [cp_integer_digits hda] at heq
        simp at heq
      · rename_i portl heq
        rw [cp_integer_digits hda] at heq
        injection heq with h2
        subst h2
        split
        · rename_i heq2
          rw [cp_integer_digits hdb] at heq2
          simp at heq2
        · rename_i porth heq2
          rw [cp_integer_digits hdb] at heq2
          injection heq2 with h3
          subst h3
          rw [if_neg (by omega)]

theorem parse_ports_flag_rev {a b : List Char} (hda : isDigitsB a = true)
    (hdb : isDigitsB b = true) (hab : digitsVal b < digitsVal a) :
    (parse_ports (a ++ '-' :: b)).2.2 = false := by
  rw [parse_ports_dash b (dash_not_mem_digits hda)]
  split
  · rfl
  · rename_i portl heq
    rw [cp_integer_digits hda] at heq
    injection heq with h2
    subst h2
    split
    · rfl
    · rename_i porth heq2
      rw [cp_integer_digits hdb] at heq2
      injection heq2 with h3
      subst h3
      rw [if_pos (Or.inl (by exact_mod_cast hab))]

theorem parse_ports_flag_hi {a b : List Char} (hda : isDigitsB a = true)
    (hdb : isDigitsB b = true) (hb : 65535 < digitsVal b) :
    (parse_ports (a ++ '-' :: b)).2.2 = false := by
  rw [parse_ports_dash b (dash_not_mem_digits hda)]
  split
  · rfl
  · rename_i portl heq
    rw [cp_integer_digits hda] at heq
    injection heq with h2
    subst h2
    split
    · rfl
    · rename_i porth heq2
      rw [cp_integer_digits hdb] at heq2
      injection heq2 with h3
      subst h3
      rw [if_pos (Or.inr (Or.inr (by exact_mod_cast hb)))]

theorem parse_ports_flag_lone {cs : List Char} (hd : isDigitsB cs = true)
    (hc : 65535 < digitsVal cs) : (parse_ports cs).2.2 = false := by
  rw [parse_ports_no_dash (dash_not_mem_digits hd)]
  split
  · rfl
  · rename_i portl heq
    rw [cp_integer_digits hd] at heq
    injection heq with h2
    subst h2
    rw [if_pos (Or.inr (Or.inr (by exact_mod_cast hc)))]

theorem splitDots_ne_nil (cs : List Char) : splitDots cs ≠ [] := by
  cases cs with
  | nil => simp [splitDots]
  | cons c cs =>
    simp only [splitDots]
    split
    · simp
    · split <;> simp

theorem mem_splitDots {c : Char} (hcdot : ¬c = '.') {cs : List Char} (hc : c ∈ cs) :
    ∃ q ∈ splitDots cs, c ∈ q := by
  induction cs with
  | nil => cases hc
  | cons x xs ih =>
    cases hs : splitDots xs with
    | nil => exact absurd hs (splitDots_ne_nil xs)
    | cons r rs =>
      by_cases hx : x = '.'
      · have hred : splitDots (x :: xs) = [] :: r :: rs := by
          simp only [splitDots, hs, if_pos hx]
        rcases List.mem_cons.mp hc with rfl | hm
        · exact absurd hx hcdot
        · obtain ⟨q, hq1, hq2⟩ := ih hm
          rw [hs] at hq1
          exact ⟨q, by rw [hred]; exact List.mem_cons_of_mem _ hq1, hq2⟩
      · have hred : splitDots (x :: xs) = (x :: r) :: rs := by
          simp only [splitDots, hs, if_neg hx]
        rcases List.mem_cons.mp hc with rfl | hm
        · exact ⟨c :: r, by rw [hred]; exact List.mem_cons_self _ _,
            List.mem_cons_self _ _⟩
        · obtain ⟨q, hq1, hq2⟩ := ih hm
          rw [hs] at hq1
          rcases List.mem_cons.mp hq1 with rfl | hq3
          · exact ⟨x :: q, by rw [hred]; exact List.mem_cons_self _ _,
              List.mem_cons_of_mem _ hq2⟩
          · exact ⟨q, by rw [hred]; exact List.mem_cons_of_mem _ hq3, hq2⟩

theorem parseQuad_dash {cs : List Char} (h : '-' ∈ cs) : parseQuad cs = none := by
  obtain ⟨q, hq1, hq2⟩ := mem_splitDots (by decide) h
  have hdig : isDigitsB q = false := by
    cases hq : isDigitsB q with
    | false => rfl
    | true => exact absurd hq2 (dash_not_mem_digits hq)
  have hoct : octet q = none := by
    simp [octet, hdig]
  unfold parseQuad
  split
  · rename_i q1 q2 q3 q4 heq
    rw [heq] at hq1
    simp only [List.mem_cons, List.not_mem_nil, or_false] at hq1
    rcases hq1 with rfl | rfl | rfl | rfl
    · simp [hoct]
    · cases ho1 : octet q1 <;> simp [ho1, hoct]
    · cases ho1 : octet q1 <;> cases ho2 : octet q2 <;> simp [ho1, ho2, hoct]
    · cases ho1 : octet q1 <;> cases ho2 : octet q2 <;> cases ho3 : octet q3 <;>
        simp [ho1, ho2, ho3, hoct]
  · rfl

theorem cp_ip_pfx_no_slash {cs : List Char} (hnm : '/' ∉ cs) :
    cp_ip_pfx cs =
      (match parseQuad cs with
       | some ad => some (ad, 2 ^ 32 - 1)
       | none => none) := by
  unfold cp_ip_pfx
  rw [splitTok_not_mem hnm]

theorem cp_ip_pfx_slash {a : List Char} (m : List Char) (hnm : '/' ∉ a) :
    cp_ip_pfx (a ++ '/' :: m) =
      (match parseQuad a with
       | none => none
       | some ad =>
         match parseQuad m with
         | some mk => some (ad, mk)
         | none =>
           if isDigitsB m = true ∧ digitsVal m ≤ 32 then some (ad, maskOfLen (digitsVal m))
           else none) := by
  unfold cp_ip_pfx
  rw [splitTok_app m hnm]

theorem cp_ip_pfx_dash {cs : List Char} (h : '-' ∈ cs) : cp_ip_pfx cs = none := by
  rcases hsp : splitTok '/' cs with ⟨a, o⟩
  cases o with
  | none =>
    obtain ⟨ha, hnm⟩ := splitTok_eq_none hsp
    subst ha
    rw [cp_ip_pfx_no_slash hnm, parseQuad_dash h]
  | some m =>
    obtain ⟨hcs, hnm⟩ := splitTok_eq_some hsp
    subst hcs
    rw [cp_ip_pfx_slash m hnm]
    have hmem := List.mem_append.mp h
    split
    · rfl
    · rename_i ad heq
      rcases hmem with hma | hmb
      · rw [parseQuad_dash hma] at heq
        cases heq
      · have hmm : '-' ∈ m := by
          rcases List.mem_cons.mp hmb with he | hmm
          · exact absurd he (by decide)
          · exact hmm
        split
        · rename_i mk heq2
          rw [parseQuad_dash hmm] at heq2
          cases heq2
        · rw [if_neg (fun hcnd => dash_not_mem_digits hcnd.1 hmm)]

theorem parseFixed_protocol {conf : List (List Char)} {c0 : Cfg0}
    (h : parseFixed conf = some c0) : cp_byte (conf.getD 3 []) = some c0.protocol := by
  unfold parseFixed at h
  split at h
  · cases h
  · rename_i dp heq1
    split at h
    · cases h
    · rename_i rn heq2
      split at h
      · cases h
      · rename_i pr heq3
        split at h
        · cases h
        · rename_i sp heq4
          split at h
          · cases h
          · injection h with h5
            subst h5
            exact heq3

theorem parseDir_fields {conf : List (List Char)} {ci : Nat} {s st : DSConfig}
    (h : parseDir conf ci s = some st) :
    st.protocol = s.protocol ∧ st.have_sport = s.have_sport ∧ st.sportl = s.sportl ∧
      st.sporth = s.sporth ∧ st.daddr = s.daddr ∧ st.dmask = s.dmask := by
  unfold parseDir at h
  split at h
  · split at h
    · injection h with h1
      subst h1
      exact ⟨rfl, rfl, rfl, rfl, rfl, rfl⟩
    · cases h
  · injection h with h1
    subst h1
    exact ⟨rfl, rfl, rfl, rfl, rfl, rfl⟩

theorem parseDports_fields {conf : List (List Char)} {ci : Nat} {s st : DSConfig}
    (h : parseDports conf ci s = some st) :
    st.protocol = s.protocol ∧ st.have_sport = s.have_sport ∧ st.sportl = s.sportl ∧
      st.sporth = s.sporth ∧ st.daddr = s.daddr ∧ st.dmask = s.dmask := by
  unfold parseDports at h
  split at h
  · split at h
    · split at h
      · have hf := parseDir_fields h
        exact hf
      · have hf := parseDir_fields h
        exact hf
    · split at h
      · cases h
      · have hf := parseDir_fields h
        exact hf
  · have hf := parseDir_fields h
    exact hf

theorem parseDst_spec {conf : List (List Char)} {ci : Nat} {c0 : Cfg0} {sl sh : Int}
    {hs : Bool} {st : DSConfig} (h : parseDst conf ci c0 sl sh hs = some st) :
    st.protocol = c0.protocol ∧ st.have_sport = hs ∧ st.sportl = sl ∧ st.sporth = sh ∧
      cp_ip_pfx (conf.getD ci []) = some (st.daddr, st.dmask) ∧ st.daddr ≠ 0 := by
  unfold parseDst at h
  split at h
  · cases h
  · rename_i dp heq
    split at h
    · cases h
    · rename_i hdz
      obtain ⟨f1, f2, f3, f4, f5, f6⟩ := parseDports_fields h
      have f5d : st.daddr = dp.1 := f5
      have f6d : st.dmask = dp.2 := f6
      refine ⟨f1, f2, f3, f4, ?_, ?_⟩
      · rw [heq, f5d, f6d]
      · rw [f5d]
        exact hdz

theorem configure_none_rev5 {conf : List (List Char)} {a b : List Char}
    (ht : conf.getD 5 [] = a ++ '-' :: b) (hda : isDigitsB a = true)
    (hdb : isDigitsB b = true) (hab : digitsVal b < digitsVal a) :
    configure conf = none := by
  have hflag : (parse_ports (conf.getD 5 [])).2.2 = false := by
    rw [ht]
    exact parse_ports_flag_rev hda hdb hab
  have hpfx : cp_ip_pfx (conf.getD 5 []) = none := by
    rw [ht]
    exact cp_ip_pfx_dash (by simp)
  unfold configure
  split
  · rfl
  · split
    · rfl
    · split
      · rfl
      · rename_i c0 hcf
        unfold parseTail
        split
        · rfl
        · split
          · rw [if_neg (fun hcontra => by rw [hflag] at hcontra; simp at hcontra)]
            unfold parseDst
            split
            · rfl
            · rename_i dp heq
              rw [hpfx] at heq
              cases heq
          · rw [if_neg (fun hcontra => by rw [hflag] at hcontra; simp at hcontra)]
            unfold parseDst
            split
            · rfl
            · rename_i dp heq
              rw [hpfx] at heq
              cases heq

/-! ### Claim theorems -/

/-- Claim C9: the port-range parser accepts exactly the tokens of shape N
or N-M with each integer in [0, 65535] and N less than or equal to M (a
lone N yields the range [N, N]); for every token N-M with N greater than
M, and for every token with a bound outside [0, 65535], it fails; and a
reversed range at token position 5 makes configure fail. -/
theorem C9_parse_ports_spec :
    (∀ cs l h, parse_ports cs = (l, h, true) ↔
       ((isDigitsB cs = true ∧ l = (digitsVal cs : Int) ∧ h = l ∧ l ≤ 65535) ∨
        (∃ a b, cs = a ++ '-' :: b ∧ isDigitsB a = true ∧ isDigitsB b = true ∧
           l = (digitsVal a : Int) ∧ h = (digitsVal b : Int) ∧ l ≤ h ∧ h ≤ 65535))) ∧
    (∀ a b, isDigitsB a = true → isDigitsB b = true → digitsVal b < digitsVal a →
       (parse_ports (a ++ '-' :: b)).2.2 = false) ∧
    (∀ a b, isDigitsB a = true → isDigitsB b = true → 65535 < digitsVal b →
       (parse_ports (a ++ '-' :: b)).2.2 = false) ∧
    (∀ cs, isDigitsB cs = true → 65535 < digitsVal cs → (parse_ports cs).2.2 = false) ∧
    (∀ conf a b, conf.getD 5 [] = a ++ '-' :: b → isDigitsB a = true →
       isDigitsB b = true → digitsVal b < digitsVal a → configure conf = none) :=
  ⟨parse_ports_ok_iff,
   fun _ _ hda hdb hab => parse_ports_flag_rev hda hdb hab,
   fun _ _ hda hdb hb => parse_ports_flag_hi hda hdb hb,
   fun _ hd hc => parse_ports_flag_lone hd hc,
   fun _ _ _ ht hda hdb hab => configure_none_rev5 ht hda hdb hab⟩

/-- Witness for C9: the reversed range 100-50 fails to parse, and the
reversed-range configuration is rejected by configure. -/
theorem C9_parse_ports_spec_witness :
    (parse_ports ("100".toList ++ '-' :: "50".toList)).2.2 = false ∧
    configure confRev = none := by
  constructor
  · exact C9_parse_ports_spec.2.1 "100".toList "50".toList (by decide) (by decide)
      (by decide)
  · exact C9_parse_ports_spec.2.2.2.2 confRev "100".toList "50".toList (by decide)
      (by decide) (by decide) (by decide)

/-- Claim C5: for TCP/UDP, configure treats token 5 as source ports
exactly when it parses as a valid port range and as the destination
prefix otherwise (sliding the destination prefix to position 6 or 5
accordingly); for other protocols, a token at position 5 that parses as a
port range makes configure fail. -/
theorem C5_token5_ambiguity :
    (∀ conf st, configure conf = some st → (st.protocol = 6 ∨ st.protocol = 17) →
      (((parse_ports (conf.getD 5 [])).2.2 = true →
          st.have_sport = true ∧
          st.sportl = (parse_ports (conf.getD 5 [])).1 ∧
          st.sporth = (parse_ports (conf.getD 5 [])).2.1 ∧
          cp_ip_pfx (conf.getD 6 []) = some (st.daddr, st.dmask)) ∧
        ((parse_ports (conf.getD 5 [])).2.2 = false →
          st.have_sport = false ∧
          cp_ip_pfx (conf.getD 5 []) = some (st.daddr, st.dmask)))) ∧
    (∀ conf p, cp_byte (conf.getD 3 []) = some p → p ≠ 6 → p ≠ 17 →
      (parse_ports (conf.getD 5 [])).2.2 = true → configure conf = none) := by
  constructor
  · intro conf st hc hp
    unfold configure at hc
    split at hc
    · cases hc
    · split at hc
      · cases hc
      · split at hc
        · cases hc
        · rename_i c0 hcf
          unfold parseTail at hc
          split at hc
          · cases hc
          · split at hc
            · split at hc
              · rename_i hok
                obtain ⟨f1, f2, f3, f4, f5, -⟩ := parseDst_spec hc
                refine ⟨fun _ => ⟨f2, f3, f4, f5⟩, fun hflag => ?_⟩
                rw [hok] at hflag
                cases hflag
              · rename_i hnok
                obtain ⟨f1, f2, f3, f4, f5, -⟩ := parseDst_spec hc
                exact ⟨fun hflag => absurd hflag hnok, fun _ => ⟨f2, f5⟩⟩
            · rename_i hnproto
              split at hc
              · cases hc
              · obtain ⟨f1, -, -, -, -, -⟩ := parseDst_spec hc
                exfalso
                rw [f1] at hp
                rcases hp with h6 | h17
                · exact hnproto (Or.inr h6)
                · exact hnproto (Or.inl h17)
  · intro conf p hb h6 h17 hflag
    unfold configure
    split
    · rfl
    · split
      · rfl
      · split
        · rfl
        · rename_i c0 hcf
          have hpc : c0.protocol = p := by
            have hpf := parseFixed_protocol hcf
            rw [hb] at hpf
            injection hpf with hinj
            exact hinj.symm
          unfold parseTail
          split
          · rfl
          · have hnp : ¬(c0.protocol = 17 ∨ c0.protocol = 6) := by
              rw [hpc]
              rintro (hx | hx)
              · exact h17 hx
              · exact h6 hx
            rw [if_neg hnp]

/-- Witness for C5: the seven-token TCP configuration with source ports
80-90 resolves token 5 as source ports and token 6 as the destination
prefix, and the ICMP configuration with a port token is rejected. -/
theorem C5_token5_ambiguity_witness :
    (st7.have_sport = true ∧
      st7.sportl = (parse_ports (conf7.getD 5 [])).1 ∧
      st7.sporth = (parse_ports (conf7.getD 5 [])).2.1 ∧
      cp_ip_pfx (conf7.getD 6 []) = some (st7.daddr, st7.dmask)) ∧
    configure confICMP = none := by
  constructor
  · exact (C5_token5_ambiguity.1 conf7 st7 (by decide) (Or.inl (by decide))).1 (by decide)
  · exact C5_token5_ambiguity.2 confICMP 1 (by decide) (by decide) (by decide) (by decide)

/-- Claim C1 (amended): if the socket-open step fails nothing is
acquired, and if bind fails the divert descriptor is closed before
initialize returns failure; but on the Linux backend no later step is
rolled back: a control-socket-open failure and a rule-insertion failure
in any direction return failure leaving the divert descriptor (and the
control socket) open, and with direction both, when the second
(input-chain) insertion fails, the already-inserted output-chain slot is
not deleted and no descriptor is closed. -/
theorem C1_linux_no_rollback :
    (∀ env cfg, env.socket_ok = false → elemInit env cfg = (none, [])) ∧
    (∀ env cfg, env.socket_ok = true → env.bind_ok = false →
       elemInit env cfg = (none, [Ev.evSocket env.fdDivert, Ev.evClose env.fdDivert])) ∧
    (∀ env cfg, env.socket_ok = true → env.bind_ok = true → env.fwsock_ok = false →
       elemInit env cfg = (none, [Ev.evSocket env.fdDivert])) ∧
    (∀ env cfg, env.socket_ok = true → env.bind_ok = true → env.fwsock_ok = true →
       cfg.inout = dirIn → env.insert_ok chainInput = false →
       elemInit env cfg =
         (none,
          [Ev.evSocket env.fdDivert, Ev.evFwSocket env.fdFw,
           Ev.evInsert chainInput cfg.rulenumber false])) ∧
    (∀ env cfg, env.socket_ok = true → env.bind_ok = true → env.fwsock_ok = true →
       cfg.inout = dirOut → env.insert_ok chainOutput = false →
       elemInit env cfg =
         (none,
          [Ev.evSocket env.fdDivert, Ev.evFwSocket env.fdFw,
           Ev.evInsert chainOutput cfg.rulenumber false])) ∧
    (∀ env cfg, env.socket_ok = true → env.bind_ok = true → env.fwsock_ok = true →
       cfg.inout ≠ dirIn → cfg.inout ≠ dirOut → env.insert_ok chainOutput = false →
       elemInit env cfg =
         (none,
          [Ev.evSocket env.fdDivert, Ev.evFwSocket env.fdFw,
           Ev.evInsert chainOutput cfg.rulenumber false])) ∧
    (∀ env cfg, env.socket_ok = true → env.bind_ok = true → env.fwsock_ok = true →
       cfg.inout ≠ dirIn → cfg.inout ≠ dirOut → env.insert_ok chainOutput = true →
       env.insert_ok chainInput = false →
       elemInit env cfg =
         (none,
          [Ev.evSocket env.fdDivert, Ev.evFwSocket env.fdFw,
           Ev.evInsert chainOutput cfg.rulenumber true,
           Ev.evInsert chainInput cfg.rulenumber false])) := by
  refine ⟨?_, ?_, ?_, ?_, ?_, ?_, ?_⟩
  · intro env cfg hs
    simp [elemInit, hs]
  · intro env cfg hs hb
    simp [elemInit, hs, hb]
  · intro env cfg hs hb hf
    simp [elemInit, hs, hb, hf]
  · intro env cfg hs hb hf hio hi
    simp [elemInit, finishInsert, hs, hb, hf, hio, hi]
  · intro env cfg hs hb hf hio ho
    have hdd : ¬dirOut = dirIn := by decide
    simp [elemInit, finishInsert, hs, hb, hf, hio, hdd, ho]
  · intro env cfg hs hb hf hin hout ho
    simp [elemInit, finishInsert, hs, hb, hf, hin, hout, ho]
  · intro env cfg hs hb hf hin hout ho hi
    simp [elemInit, finishInsert, hs, hb, hf, hin, hout, ho, hi]

/-- Counterexample to Claim C1 as stated: with direction both and the
second (input-chain) insertion failing, initialize returns failure with
the output-chain slot still inserted - no deletion is issued and no
descriptor is closed before returning. -/
theorem C1_rollback_counterexample :
    (elemInit envNoRollback cfgEx).1 = none ∧
    (elemInit envNoRollback cfgEx).2 =
      [Ev.evSocket 3, Ev.evFwSocket 4, Ev.evInsert chainOutput 100 true,
       Ev.evInsert chainInput 100 false] ∧
    (elemInit envNoRollback cfgEx).2.all (fun e => !isDeleteEv e) = true ∧
    (elemInit envNoRollback cfgEx).2.all (fun e => !isCloseEv e) = true := by
  refine ⟨?_, ?_, ?_, ?_⟩ <;> decide

/-- Witness for the amended C1: concrete environments exercising the
socket-open, bind, control-socket-open, per-direction insertion and
second-insertion failure paths. -/
theorem C1_linux_no_rollback_witness :
    elemInit envSockFail cfgEx = (none, []) ∧
    elemInit envBindFail cfgEx =
      (none, [Ev.evSocket envBindFail.fdDivert, Ev.evClose envBindFail.fdDivert]) ∧
    elemInit envFwFail cfgEx = (none, [Ev.evSocket envFwFail.fdDivert]) ∧
    elemInit envInsFail cfgExIn =
      (none,
       [Ev.evSocket envInsFail.fdDivert, Ev.evFwSocket envInsFail.fdFw,
        Ev.evInsert chainInput cfgExIn.rulenumber false]) ∧
    elemInit envInsFail cfgExOut =
      (none,
       [Ev.evSocket envInsFail.fdDivert, Ev.evFwSocket envInsFail.fdFw,
        Ev.evInsert chainOutput cfgExOut.rulenumber false]) ∧
    elemInit envInsFail cfgEx =
      (none,
       [Ev.evSocket envInsFail.fdDivert, Ev.evFwSocket envInsFail.fdFw,
        Ev.evInsert chainOutput cfgEx.rulenumber false]) ∧
    elemInit envNoRollback cfgEx =
      (none,
       [Ev.evSocket envNoRollback.fdDivert, Ev.evFwSocket envNoRollback.fdFw,
        Ev.evInsert chainOutput cfgEx.rulenumber true,
        Ev.evInsert chainInput cfgEx.rulenumber false]) := by
  refine ⟨C1_linux_no_rollback.1 envSockFail cfgEx rfl,
          C1_linux_no_rollback.2.1 envBindFail cfgEx rfl rfl,
          C1_linux_no_rollback.2.2.1 envFwFail cfgEx rfl rfl rfl,
          C1_linux_no_rollback.2.2.2.1 envInsFail cfgExIn rfl rfl rfl rfl
            (by decide),
          C1_linux_no_rollback.2.2.2.2.1 envInsFail cfgExOut rfl rfl rfl rfl
            (by decide),
          C1_linux_no_rollback.2.2.2.2.2.1 envInsFail cfgEx rfl rfl rfl
            (by decide) (by decide) (by decide),
          C1_linux_no_rollback.2.2.2.2.2.2 envNoRollback cfgEx rfl rfl rfl
            (by decide) (by decide) (by decide) (by decide)⟩

/-- Claim C2 is refuted by the code: the literal 9-token scenario is
rejected outright (destination address 0.0.0.0 fails the non-zero
check), and with a nonzero destination prefix the 9-token form succeeds
with the dst_ports and direction tokens silently ignored (no destination
ports recorded, direction empty meaning both), so the Linux backend
inserts two rules rather than one input-chain rule. -/
theorem C2_nine_token_eval :
    configure ex9 = none ∧
    configure ex9b = some cfgEx ∧
    cfgEx.have_dport = false ∧
    cfgEx.inout = [] ∧
    (elemInit envAllOk cfgEx).2 =
      [Ev.evSocket 3, Ev.evFwSocket 4, Ev.evInsert chainOutput 100 true,
       Ev.evInsert chainInput 100 true, Ev.evAddSelect 3] := by
  refine ⟨?_, ?_, ?_, ?_, ?_⟩ <;> decide

/-- Claim C3 is refuted by the code: the redirect port stored in the rule
record is htons applied twice to the divert port - the divert port in
host byte order on a little-endian host - not network byte order: at
divert port 9999 the record carries 9999 while network byte order would
be 3879. -/
theorem C3_redirpt_eval :
    ((elemInit envAllOk cfgEx).1.map (fun st => st.ipfc.fwn_rule.ipfw.fw_redirpt)) =
      some 9999 ∧
    (mkFwRule cfgEx).fw_redirpt = htons (htons cfgEx.divertport) ∧
    htons 9999 = 3879 ∧
    (mkFwRule cfgEx).fw_redirpt ≠ htons cfgEx.divertport := by
  refine ⟨?_, ?_, ?_, ?_⟩ <;> decide

/-- Claim C4 (amended): uninitialize from any resource-holding state
performs, in order: the best-effort firewall deletion(s), closing the
control socket, closing the divert descriptor, and deregistering read
readiness last - not deregistration first as stated. -/
theorem C4_teardown_order :
    ∀ env st, 0 ≤ st.fd →
      elemUninit env st =
        ({ st with fd := -1 },
         [Ev.evDelete st.ipfc.fwn_label st.ipfc.fwn_rulenum env.del1_ok] ++
           (if st.inout = [] then
              [Ev.evDelete st.ipfc2.fwn_label st.ipfc2.fwn_rulenum env.del2_ok]
            else []) ++
           [Ev.evClose st.fw_sock, Ev.evClose st.fd, Ev.evRemoveSelect st.fd]) := by
  intro env st h
  simp [elemUninit, h]

/-- Counterexample to Claim C4 as stated: from a live state the first
release performed is a firewall deletion, not the readiness
deregistration; the deregistration comes last. -/
theorem C4_teardown_order_counterexample :
    (elemUninit envU stLive).2 =
      [Ev.evDelete chainInput 100 true, Ev.evDelete chainOutput 100 true,
       Ev.evClose 4, Ev.evClose 3, Ev.evRemoveSelect 3] ∧
    (elemUninit envU stLive).2.head? ≠ some (Ev.evRemoveSelect 3) ∧
    (elemUninit envU stLive).2.getLast? = some (Ev.evRemoveSelect 3) := by
  refine ⟨?_, ?_, ?_⟩ <;> decide

/-- Witness for the amended C4 at the live state. -/
theorem C4_teardown_order_witness :
    elemUninit envU stLive =
      ({ stLive with fd := -1 },
       [Ev.evDelete stLive.ipfc.fwn_label stLive.ipfc.fwn_rulenum envU.del1_ok] ++
         (if stLive.inout = [] then
            [Ev.evDelete stLive.ipfc2.fwn_label stLive.ipfc2.fwn_rulenum envU.del2_ok]
          else []) ++
         [Ev.evClose stLive.fw_sock, Ev.evClose stLive.fd,
          Ev.evRemoveSelect stLive.fd]) :=
  C4_teardown_order envU stLive (by decide)

/-- Claim C6: uninitialize is idempotent - a second invocation finds the
descriptor marked closed, changes nothing and performs no deletion, no
close and no deregistration. -/
theorem C6_uninit_idempotent :
    ∀ env1 env2 st,
      elemUninit env2 (elemUninit env1 st).1 = ((elemUninit env1 st).1, []) := by
  intro env1 env2 st
  by_cases h : 0 ≤ st.fd
  · have h2 : ¬(0 : Int) ≤ -1 := by decide
    simp [elemUninit, h, h2]
  · simp [elemUninit, h]

/-- Claim C7: selected on the owned descriptor performs exactly one
recvfrom per invocation; a positive receive length L yields exactly one
packet pushed to output port 0 with payload length L, payload offset 2
(the headroom) and the wall-clock timestamp; selected on a foreign
descriptor is a no-op. -/
theorem C7_selected_receive :
    (∀ env st fd, fd ≠ st.fd → elemSelected env st fd = (st, [])) ∧
    (∀ env st, ((elemSelected env st st.fd).2.countP isRecvEv) = 1) ∧
    (∀ env st, 0 < env.recvLen →
       elemSelected env st st.fd =
         (st, [Ev.evMakePkt 2 2046, Ev.evRecv st.fd env.recvLen,
               Ev.evPushPkt 0 2 env.recvLen env.now])) := by
  refine ⟨?_, ?_, ?_⟩
  · intro env st fd h
    simp [elemSelected, h]
  · intro env st
    by_cases h : 0 < env.recvLen
    · simp [elemSelected, h, isRecvEv, List.countP_cons, List.countP_nil]
    · by_cases he : env.recvLen ≤ 0 ∧ env.errnoEAGAIN = false
      · simp [elemSelected, h, he, isRecvEv, List.countP_cons, List.countP_nil]
      · simp [elemSelected, h, he, isRecvEv, List.countP_cons, List.countP_nil]
  · intro env st h
    simp [elemSelected, h]

/-- Witness for C7: a foreign descriptor is ignored, one recvfrom per
invocation, and the 60-byte datagram at clock 777 yields one pushed
packet of length 60 with headroom 2 and timestamp 777. -/
theorem C7_selected_receive_witness :
    elemSelected envSelPos stLive 9 = (stLive, []) ∧
    ((elemSelected envSelPos stLive stLive.fd).2.countP isRecvEv) = 1 ∧
    elemSelected envSelPos stLive stLive.fd =
      (stLive, [Ev.evMakePkt 2 2046, Ev.evRecv stLive.fd envSelPos.recvLen,
                Ev.evPushPkt 0 2 envSelPos.recvLen envSelPos.now]) :=
  ⟨C7_selected_receive.1 envSelPos stLive 9 (by decide),
   C7_selected_receive.2.1 envSelPos stLive,
   C7_selected_receive.2.2 envSelPos stLive (by decide)⟩

/-- Claim C8: when recvfrom on the owned descriptor returns zero or a
negative value, the freshly allocated buffer is dropped and no packet is
pushed; the error is logged unless errno is EAGAIN; the element state is
unchanged and no close or deregistration happens. -/
theorem C8_selected_error_swallow :
    ∀ env st, env.recvLen ≤ 0 →
      (elemSelected env st st.fd).1 = st ∧
      (elemSelected env st st.fd).2 =
        [Ev.evMakePkt 2 2046, Ev.evRecv st.fd env.recvLen, Ev.evKillPkt] ++
          (if env.errnoEAGAIN = false then [Ev.evLog] else []) ∧
      (elemSelected env st st.fd).2.all
        (fun e => !isPushEv e && !isCloseEv e && !isRemoveSelEv e) = true := by
  intro env st h
  have hnpos : ¬0 < env.recvLen := by omega
  refine ⟨?_, ?_, ?_⟩
  · simp [elemSelected, hnpos]
  · by_cases he : env.errnoEAGAIN = false
    · simp [elemSelected, hnpos, he, h]
    · simp [elemSelected, hnpos, he, h]
  · by_cases he : env.errnoEAGAIN = false
    · simp [elemSelected, hnpos, he, h, isPushEv, isCloseEv, isRemoveSelEv]
    · simp [elemSelected, hnpos, he, h, isPushEv, isCloseEv, isRemoveSelEv]

/-- Witness for C8: a failed receive with a non-EAGAIN errno at the live
state. -/
theorem C8_selected_error_swallow_witness :
    (elemSelected envSelNeg stLive stLive.fd).1 = stLive ∧
    (elemSelected envSelNeg stLive stLive.fd).2 =
      [Ev.evMakePkt 2 2046, Ev.evRecv stLive.fd envSelNeg.recvLen, Ev.evKillPkt] ++
        (if envSelNeg.errnoEAGAIN = false then [Ev.evLog] else []) ∧
    (elemSelected envSelNeg stLive stLive.fd).2.all
      (fun e => !isPushEv e && !isCloseEv e && !isRemoveSelEv e) = true :=
  C8_selected_error_swallow envSelNeg stLive (by decide)

/-- Claim C10: the destructor always invokes uninitialize, so a live
state is fully released - a deletion is issued for each installed slot,
the divert descriptor is closed, readiness is deregistered and the
descriptor is marked closed - while a state with no open descriptor
releases nothing. -/
theorem C10_dtor_uninit :
    ∀ env st,
      elemDtor env st = elemUninit env st ∧
      (0 ≤ st.fd →
        Ev.evDelete st.ipfc.fwn_label st.ipfc.fwn_rulenum env.del1_ok ∈
            (elemDtor env st).2 ∧
        (st.inout = [] →
          Ev.evDelete st.ipfc2.fwn_label st.ipfc2.fwn_rulenum env.del2_ok ∈
            (elemDtor env st).2) ∧
        Ev.evClose st.fd ∈ (elemDtor env st).2 ∧
        Ev.evRemoveSelect st.fd ∈ (elemDtor env st).2 ∧
        (elemDtor env st).1.fd = -1) ∧
      (st.fd < 0 → elemDtor env st = (st, [])) := by
  intro env st
  refine ⟨rfl, ?_, ?_⟩
  · intro h
    refine ⟨?_, ?_, ?_, ?_, ?_⟩
    · simp [elemDtor, elemUninit, h]
    · intro hio
      simp [elemDtor, elemUninit, h, hio]
    · simp [elemDtor, elemUninit, h]
    · simp [elemDtor, elemUninit, h]
    · simp [elemDtor, elemUninit, h]
  · intro h
    have hn : ¬0 ≤ st.fd := by omega
    simp [elemDtor, elemUninit, hn]

/-- Witness for C10 at the live and the closed state. -/
theorem C10_dtor_uninit_witness :
    Ev.evClose stLive.fd ∈ (elemDtor envU stLive).2 ∧
    Ev.evDelete stLive.ipfc2.fwn_label stLive.ipfc2.fwn_rulenum envU.del2_ok ∈
      (elemDtor envU stLive).2 ∧
    elemDtor envU stDead = (stDead, []) :=
  ⟨((C10_dtor_uninit envU stLive).2.1 (by decide)).2.2.1,
   ((C10_dtor_uninit envU stLive).2.1 (by decide)).2.1 (by decide),
   (C10_dtor_uninit envU stDead).2.2 (by decide)⟩
